import Mathlib

/-!
Shallow embedding of the process lifecycle controller of the
cloud-functions-emulator CLI (src/cli/controller.js), together with proofs
of the specified properties: the start/stop readiness-polling protocol,
forced kill, status reporting, flag selection for the spawned child process,
option-fallback resolution, and POST body normalization in the HTTP action
dispatcher.
-/

namespace Emulator

/-! ## JavaScript value model

The controller manipulates loosely typed option values (booleans, numbers,
strings, undefined).  We model the values that actually flow through the
code, together with JavaScript truthiness, strict equality, and the NaN
arithmetic that the poll counter relies on. -/

/-- A JavaScript value as used by the controller options and stores.
Numbers are whole (ports, pids, debug ports, timeouts in milliseconds),
so an integer payload represents them exactly. -/
inductive JSVal where
  | undefined
  | null
  | bool (b : Bool)
  | num (n : Int)
  | str (s : String)
deriving DecidableEq, BEq, Repr

/-- JavaScript truthiness: undefined, null, false, 0 and the empty string
are falsy; everything else the controller handles is truthy. -/
def truthy : JSVal → Bool
  | .undefined => false
  | .null => false
  | .bool b => b
  | .num n => !(n == 0)
  | .str s => !(s == "")

/-- The JavaScript logical-or on values: returns the left operand when it
is truthy, the right operand otherwise. -/
def jsOr (a b : JSVal) : JSVal :=
  if truthy a then a else b

/-- String conversion as performed by template-literal interpolation. -/
def jsShow : JSVal → String
  | .undefined => "undefined"
  | .null => "null"
  | .bool true => "true"
  | .bool false => "false"
  | .num n => toString n
  | .str s => s

/-- A JavaScript number as used by the poll counter.  The undefined
constructor stands for the undefined first-call counter argument, nan for
the result of arithmetic on undefined or non-numeric values.  The values
that actually occur are whole numbers (int n, denoting n) and the exact
rationals produced by dividing a whole timeout by the 500 ms poll
increment and repeatedly decrementing (frac500 n, denoting n / 500).
Every operation below is exact rational arithmetic on these values. -/
inductive JSNum where
  | undefined
  | nan
  | int (n : Int)
  | frac500 (n : Int)
deriving DecidableEq, Repr

/-- Numeric falsiness: undefined, NaN and 0 are falsy. -/
def jsFalsy : JSNum → Bool
  | .undefined => true
  | .nan => true
  | .int n => n == 0
  | .frac500 n => n == 0

/-- The comparison i less-or-equal zero; every comparison with NaN (and
with undefined, which coerces to NaN) is false. -/
def jsLe0 : JSNum → Bool
  | .undefined => false
  | .nan => false
  | .int n => decide (n ≤ 0)
  | .frac500 n => decide (n ≤ 0)

/-- The decrement i-- of the poll counter; arithmetic on undefined or NaN
yields NaN. -/
def jsSub1 : JSNum → JSNum
  | .undefined => .nan
  | .nan => .nan
  | .int n => .int (n - 1)
  | .frac500 n => .frac500 (n - 500)

/-- Division of the timeout option by the poll increment, as in
opts.timeout / TIMEOUT_POLL_INCREMENT; undefined or NaN input yields
NaN.  A whole timeout of n milliseconds divides to the exact rational
n / 500; the model does not support dividing an already fractional value
(such a value cannot reach this operation). -/
def jsDiv500 : JSNum → JSNum
  | .undefined => .nan
  | .nan => .nan
  | .int n => .frac500 n
  | .frac500 _ => .nan

/-- The comparison major greater-or-equal six used by the inspect-flag
version gate; false for NaN (a failed parseInt). -/
def jsGe6 : JSNum → Bool
  | .undefined => false
  | .nan => false
  | .int n => decide ((6 : Int) ≤ n)
  | .frac500 n => decide ((6 : Int) * 500 ≤ n)

/-! ## Persisted status store

store.status is a small persisted key-value record (configstore).  We model
it as an association list; get of a missing key yields undefined, and clear
empties the record. -/

/-- The persisted status record: an association of keys to values. -/
def Status := List (String × JSVal)

instance : DecidableEq Status := by
  unfold Status
  infer_instance

/-- Reads one key of the status record; undefined when absent. -/
def statusGet (k : String) (st : Status) : JSVal :=
  match List.find? (fun p => p.1 == k) st with
  | some p => p.2
  | none => .undefined

/-- Writes one key of the status record. -/
def statusSet (k : String) (v : JSVal) (st : Status) : Status :=
  (k, v) :: List.filter (fun p => !(p.1 == k)) st

/-- Writes a whole bundle of keys, as in store.status.set of an object. -/
def statusSetAll (fields : List (String × JSVal)) (st : Status) : Status :=
  List.foldl (fun acc kv => statusSet kv.1 kv.2 acc) st fields

/-- Clears the status record, as in store.status.clear. -/
def statusClear (_st : Status) : Status := ([] : List (String × JSVal))

/-! ## Setting resolution

getSetting and getEmulatorRootUri resolve each option by JavaScript
logical-or fallback chains. -/

/-- getSetting: a caller-supplied option falls back to the configuration
default when falsy. -/
def getSetting (key : String) (opts cfg : String → JSVal) : JSVal :=
  jsOr (opts key) (cfg key)

/-- The host used by getEmulatorRootUri: options, then the persisted
status record, then the configuration. -/
def resolvedHost (opts : String → JSVal) (st : Status) (cfg : String → JSVal) : JSVal :=
  jsOr (opts "host") (jsOr (statusGet "host" st) (cfg "host"))

/-- The port used by getEmulatorRootUri: options, then the persisted
status record, then the configuration. -/
def resolvedPort (opts : String → JSVal) (st : Status) (cfg : String → JSVal) : JSVal :=
  jsOr (opts "port") (jsOr (statusGet "port" st) (cfg "port"))

/-- getEmulatorRootUri: the base URI built from the resolved host and
port. -/
def getEmulatorRootUri (opts : String → JSVal) (st : Status) (cfg : String → JSVal) : String :=
  "http://" ++ jsShow (resolvedHost opts st cfg) ++ ":" ++ jsShow (resolvedPort opts st cfg)

/-! ## Readiness poller

testConnection attempts a TCP connection; we abstract each attempt as an
externally given outcome per attempt index.  The recursive pollers
_waitForStart and _waitForStop thread a countdown initialized to
opts.timeout / 500, decrement it on each non-terminal probe, and retry
after a fixed 500 ms delay. -/

/-- Outcome of one TCP connectivity probe. -/
inductive Probe where
  | up
  | down
deriving DecidableEq, Repr

/-- How a poll loop ended. -/
inductive WaitResult where
  | resolved
  | timedOut
deriving DecidableEq, Repr

/-- Observable outcome of a finished poll loop: how it ended, the index of
the last probe performed, the milliseconds of delay accumulated before
that probe, and the final value of the countdown. -/
structure WaitOut where
  result : WaitResult
  lastIdx : Nat
  elapsed : Nat
  counter : JSNum
deriving DecidableEq, Repr

/-- The fixed poll interval in milliseconds. -/
def TIMEOUT_POLL_INCREMENT : Nat := 500

/-- One evaluation of the body of _waitForStart, fuel-indexed so that the
possibly non-terminating recursion is observable: none means the loop is
still polling after fuel probes.  A falsy counter is re-initialized to
timeout / 500; a successful probe resolves; a failed probe decrements the
counter, raises the start-timeout error once the counter is at or below
zero, and otherwise retries after one poll interval. -/
def waitForStartAux (probe : Nat → Probe) (timeout : JSNum) :
    JSNum → Nat → Nat → Nat → Option WaitOut
  | _, _, _, 0 => none
  | i, k, e, fuel + 1 =>
    let i := if jsFalsy i then jsDiv500 timeout else i
    match probe k with
    | .up => some ⟨.resolved, k, e, i⟩
    | .down =>
      let i := jsSub1 i
      if jsLe0 i then some ⟨.timedOut, k, e, i⟩
      else waitForStartAux probe timeout i (k + 1) (e + TIMEOUT_POLL_INCREMENT) fuel

/-- _waitForStart entered as from start: the counter argument is
undefined on the first call. -/
def waitForStart (probe : Nat → Probe) (timeout : JSNum) (fuel : Nat) : Option WaitOut :=
  waitForStartAux probe timeout .undefined 0 0 fuel

/-- One evaluation of the body of _waitForStop: the mirror image of
_waitForStart.  A failed probe (connection refused) resolves; a successful
probe decrements the counter, raises the stop-timeout error once the
counter is at or below zero, and otherwise retries after one poll
interval. -/
def waitForStopAux (probe : Nat → Probe) (timeout : JSNum) :
    JSNum → Nat → Nat → Nat → Option WaitOut
  | _, _, _, 0 => none
  | i, k, e, fuel + 1 =>
    let i := if jsFalsy i then jsDiv500 timeout else i
    match probe k with
    | .down => some ⟨.resolved, k, e, i⟩
    | .up =>
      let i := jsSub1 i
      if jsLe0 i then some ⟨.timedOut, k, e, i⟩
      else waitForStopAux probe timeout i (k + 1) (e + TIMEOUT_POLL_INCREMENT) fuel

/-- _waitForStop entered with an undefined counter argument. -/
def waitForStop (probe : Nat → Probe) (timeout : JSNum) (fuel : Nat) : Option WaitOut :=
  waitForStopAux probe timeout .undefined 0 0 fuel

/-! ## Errors and promise outcomes -/

/-- The error vocabulary of the controller. -/
inductive Err where
  | spawnFail (msg : String)
  | startTimeout
  | stopTimeout
  | transport (msg : String)
  | sigFail
  | parseFail (msg : String)
deriving DecidableEq, Repr

/-- The settled state of a promise: resolved with a value or rejected with
an error. -/
inductive POut (α : Type) where
  | res (a : α)
  | rej (e : Err)
deriving DecidableEq, Repr

/-- A promise-returning computation together with the trace of controller
operations it invoked, in order. -/
inductive Op where
  | httpDelete
  | waitForStopOp
  | killOp
deriving DecidableEq, Repr

/-- A computation outcome paired with its operation trace. -/
structure PComp (α : Type) where
  ops : List Op
  out : POut α

/-- The two-handler promise .then: the resolution handler runs on a
resolved promise, the rejection handler on a rejected one; the traces
concatenate. -/
def PComp.then2 {α β : Type} (p : PComp α) (onRes : α → PComp β) (onRej : Err → PComp β) :
    PComp β :=
  match p.out with
  | .res a => let q := onRes a; ⟨p.ops ++ q.ops, q.out⟩
  | .rej e => let q := onRej e; ⟨p.ops ++ q.ops, q.out⟩

/-- The one-handler promise .then: rejection passes through. -/
def PComp.then1 {α β : Type} (p : PComp α) (onRes : α → PComp β) : PComp β :=
  p.then2 onRes (fun e => ⟨[], .rej e⟩)

/-! ## Process lifecycle operations -/

/-- kill, body phase: process.kill of the persisted pid throws when signal
delivery fails (including a missing or stale pid); on success the status
record is cleared.  The delivers parameter says for which pid values
signal delivery succeeds. -/
def killBody (delivers : JSVal → Bool) (st : Status) : Status × POut Unit :=
  if delivers (statusGet "pid" st) then (statusClear st, .res ())
  else (st, .rej .sigFail)

/-- kill: the body with a catch handler that clears the status record and
resolves even when signal delivery threw. -/
def kill (delivers : JSVal → Bool) (st : Status) : Status × POut Unit :=
  match killBody delivers st with
  | (st1, .res a) => (st1, .res a)
  | (st1, .rej _) => (statusClear st1, .res ())

/-- stop: DELETE the server root, then wait for stop confirmation, then
call kill whether the confirmation path resolved or rejected.  The three
parameters are the outcomes of the DELETE request, of _waitForStop, and of
kill. -/
def stop (deleteOut waitOut killOut : POut Unit) : PComp Unit :=
  PComp.then2
    (PComp.then1 ⟨[Op.httpDelete], deleteOut⟩ (fun _ => ⟨[Op.waitForStopOp], waitOut⟩))
    (fun _ => ⟨[Op.killOp], killOut⟩)
    (fun _ => ⟨[Op.killOp], killOut⟩)

/-- start, after option resolution: spawn the child (an externally given
outcome), and only on spawn success persist the resolved settings and the
child pid to the status record and enter _waitForStart.  A spawn error
propagates before any write to the status store. -/
def startRun (spawnRes : Except Err Nat) (fields : List (String × JSVal))
    (probe : Nat → Probe) (timeout : JSNum) (fuel : Nat) (st : Status) :
    Status × Option (Except Err Nat) :=
  match spawnRes with
  | .error e => (st, some (.error e))
  | .ok pid =>
    let st1 := statusSet "pid" (.num pid) (statusSetAll fields st)
    match waitForStart probe timeout fuel with
    | none => (st1, none)
    | some o =>
      match o.result with
      | .resolved => (st1, some (.ok o.lastIdx))
      | .timedOut => (st1, some (.error .startTimeout))

/-! ## status -/

/-- The result vocabulary of status. -/
inductive StatusOutcome where
  | running (metadata : Status)
  | stopped (error : Err)
deriving DecidableEq

/-- status: probe the TCP connection; on success resolve with RUNNING and
the full persisted status record (store.status.all), on failure resolve
with STOPPED carrying the probe error.  Both handlers return plainly, so
the promise always resolves. -/
def statusOp (probeOut : POut Unit) (st : Status) : POut StatusOutcome :=
  match probeOut with
  | .res _ => .res (.running st)
  | .rej e => .res (.stopped e)

/-- Modelled from the spec: the status operation as the specification
table describes it, obtaining the metadata of a running server via GET
env=true instead of from the persisted status record.  Used only to
compare the specified behaviour with the implemented one. -/
def statusSpecModel (probeOut : POut Unit) (envMeta : Status) : POut StatusOutcome :=
  match probeOut with
  | .res _ => .res (.running envMeta)
  | .rej e => .res (.stopped e)

/-! ## Debug and inspect flags of start -/

/-- Console messages surfaced while choosing the debug and inspect
flags. -/
inductive ConsoleMsg where
  | logInspect
  | warnInspectNode
  | logDebug
deriving DecidableEq, Repr

/-- The strict-equality test used on the inspect and debug options:
the value is the boolean true or the string true. -/
def isTrueFlag (v : JSVal) : Bool :=
  (v == JSVal.bool true) || (v == JSVal.str "true")

/-- parseInt, base ten, of a character stream: the value of the leading
digit run, NaN when there is none. -/
def parseIntPrefix : List Char → Nat → Bool → Option Nat
  | c :: rest, acc, seen =>
    if c.isDigit then parseIntPrefix rest (acc * 10 + (c.toNat - 48)) true
    else if seen then some acc else none
  | [], acc, seen => if seen then some acc else none

/-- parseInt of the first dot-separated component of process.version with
its leading character removed, as in the runtime version gate; NaN when no
integer parses. -/
def parseMajor (version : String) : JSNum :=
  match parseIntPrefix ((version.data.takeWhile (fun c => !(c == '.'))).drop 1) 0 false with
  | some n => .int n
  | none => .nan

/-- The flag-selection branch of start: when inspect is requested it is
honored only on a runtime of major version at least six, otherwise a
warning is printed and no flag is added; the debug flag is examined only
when inspect was not requested. Returns the flags to prepend to the child
arguments and the console messages printed. -/
def debugInspectFlags (inspect debug debugPort : JSVal) (major : JSNum) :
    List String × List ConsoleMsg :=
  if isTrueFlag inspect then
    if jsGe6 major then (["--inspect"], [.logInspect])
    else ([], [.warnInspectNode])
  else if isTrueFlag debug then
    (["--debug=" ++ jsShow debugPort], [.logDebug])
  else ([], [])

/-- The full child argument vector: the selected debug or inspect flags
prepended (unshift) to the base arguments. -/
def startArgs (baseArgs : List String) (inspect debug debugPort : JSVal) (major : JSNum) :
    List String :=
  (debugInspectFlags inspect debug debugPort major).1 ++ baseArgs

/-! ## JSON values and JSON.parse

The action dispatcher normalizes a string POST body through JSON.parse.
We embed JSON documents and a recursive-descent parser for them. -/

/-- A JSON document. -/
inductive Json where
  | null
  | bool (b : Bool)
  | num (n : Int)
  | str (s : String)
  | arr (items : List Json)
  | obj (fields : List (String × Json))

/-- Skips JSON whitespace. -/
def skipWs : List Char → List Char
  | c :: rest =>
    if c == ' ' || c == '\n' || c == '\t' || c == '\r' then skipWs rest else c :: rest
  | [] => []

/-- Reads the remainder of a JSON string literal up to its closing quote,
handling the escaped quote. -/
def takeStringLit : List Char → List Char → Option (String × List Char)
  | '\\' :: '"' :: rest, acc => takeStringLit rest (acc ++ ['"'])
  | '"' :: rest, acc => some (String.mk acc, rest)
  | c :: rest, acc => takeStringLit rest (acc ++ [c])
  | [], _ => none

/-- Reads a run of decimal digits; fails when none are present. -/
def takeDigits : List Char → Nat → Bool → Option (Nat × List Char)
  | c :: rest, acc, seen =>
    if c.isDigit then takeDigits rest (acc * 10 + (c.toNat - 48)) true
    else if seen then some (acc, c :: rest) else none
  | [], acc, seen => if seen then some (acc, []) else none

mutual

/-- Parses one JSON value from the character stream, fuel-indexed. -/
def parseVal : Nat → List Char → Option (Json × List Char)
  | 0, _ => none
  | f + 1, cs =>
    match skipWs cs with
    | '\x7b' :: rest => parseObjBody f (skipWs rest) []
    | '[' :: rest => parseArrBody f (skipWs rest) []
    | '"' :: rest => Option.map (fun p => (Json.str p.1, p.2)) (takeStringLit rest [])
    | 't' :: 'r' :: 'u' :: 'e' :: rest => some (Json.bool true, rest)
    | 'f' :: 'a' :: 'l' :: 's' :: 'e' :: rest => some (Json.bool false, rest)
    | 'n' :: 'u' :: 'l' :: 'l' :: rest => some (Json.null, rest)
    | '-' :: rest => Option.map (fun p => (Json.num (-(p.1 : Int)), p.2)) (takeDigits rest 0 false)
    | other => Option.map (fun p => (Json.num (p.1 : Int), p.2)) (takeDigits other 0 false)

/-- Parses the members of a JSON object after its opening brace. -/
def parseObjBody : Nat → List Char → List (String × Json) → Option (Json × List Char)
  | 0, _, _ => none
  | f + 1, cs, acc =>
    match cs with
    | '\x7d' :: rest => some (Json.obj acc.reverse, rest)
    | '"' :: rest =>
      match takeStringLit rest [] with
      | none => none
      | some (key, rest2) =>
        match skipWs rest2 with
        | ':' :: rest3 =>
          match parseVal f rest3 with
          | none => none
          | some (v, rest4) =>
            match skipWs rest4 with
            | ',' :: rest5 => parseObjBody f (skipWs rest5) ((key, v) :: acc)
            | '\x7d' :: rest5 => some (Json.obj (((key, v) :: acc)).reverse, rest5)
            | _ => none
        | _ => none
    | _ => none

/-- Parses the items of a JSON array after its opening bracket. -/
def parseArrBody : Nat → List Char → List Json → Option (Json × List Char)
  | 0, _, _ => none
  | f + 1, cs, acc =>
    match cs with
    | ']' :: rest => some (Json.arr acc.reverse, rest)
    | _ =>
      match parseVal f cs with
      | none => none
      | some (v, rest) =>
        match skipWs rest with
        | ',' :: rest2 => parseArrBody f (skipWs rest2) (v :: acc)
        | ']' :: rest2 => some (Json.arr ((v :: acc)).reverse, rest2)
        | _ => none

end

/-- JSON.parse: parses a complete document, requiring only trailing
whitespace after it. -/
def jsonParse (s : String) : Option Json :=
  match parseVal (s.length + 1) s.data with
  | some (j, rest) =>
    match skipWs rest with
    | [] => some j
    | _ => none
  | none => none

/-! ## HTTP action dispatcher -/

/-- A POST body as supplied by a caller: either a pre-serialized JSON
string or a native structured value. -/
inductive BodyData where
  | str (s : String)
  | obj (j : Json)

/-- JavaScript truthiness of a body value: the empty string is falsy,
objects are truthy. -/
def bodyTruthy : BodyData → Bool
  | .str s => !(s == "")
  | .obj _ => true

/-- A structured argument to the action dispatcher. -/
structure ActionOpts where
  url : String := ""
  method : Option String := none
  data : Option BodyData := none
  timeoutMs : Option Nat := none
  raw : Bool := false

/-- The argument of the action dispatcher: a bare URL or structured
options. -/
inductive ActionArg where
  | urlOnly (u : String)
  | withOpts (o : ActionOpts)

/-- The json field of the outgoing request: the got json flag, or a
normalized JSON body. -/
inductive JsonField where
  | flagTrue
  | body (j : Json)

/-- The outgoing HTTP request assembled by the action dispatcher. -/
structure HttpRequest where
  url : String
  method : String
  json : JsonField
  timeoutMs : Option Nat

/-- The action dispatcher, request-assembly phase: a bare URL becomes a
structured argument; a falsy method defaults to GET; the json flag is set;
for a POST with a truthy body, a string body is parsed as JSON (a parse
failure throws) and any other body is passed through.  Returns the
request and the raw flag. -/
def buildRequest (a : ActionArg) : Except Err (HttpRequest × Bool) :=
  let o := match a with
    | .urlOnly u => ({ url := u } : ActionOpts)
    | .withOpts o => o
  let method := match o.method with
    | some m => if m == "" then "GET" else m
    | none => "GET"
  let dataIfPost := match o.data with
    | some d => if method == "POST" && bodyTruthy d then some d else none
    | none => none
  match dataIfPost with
  | some (.str s) =>
    match jsonParse s with
    | some j => .ok (⟨o.url, method, .body j, o.timeoutMs⟩, o.raw)
    | none => .error (.parseFail s)
  | some (.obj j) => .ok (⟨o.url, method, .body j, o.timeoutMs⟩, o.raw)
  | none => .ok (⟨o.url, method, .flagTrue, o.timeoutMs⟩, o.raw)

/-- call: POST the payload to the root URI extended with the function
name, requesting the raw response. -/
def call (rootUri name : String) (data : Option BodyData) : Except Err (HttpRequest × Bool) :=
  buildRequest (.withOpts { url := rootUri ++ "/" ++ name, method := some "POST",
                            data := data, raw := true })

/-! ## Poll-loop lemmas -/

/-- A resolved start poll saw a successful probe at its last index and
only failed probes before it (from the index where it entered). -/
lemma waitForStartAux_resolved (probe : Nat → Probe) (t : JSNum) :
    ∀ (fuel : Nat) (i : JSNum) (k e : Nat) (o : WaitOut),
      waitForStartAux probe t i k e fuel = some o → o.result = WaitResult.resolved →
      probe o.lastIdx = Probe.up ∧ k ≤ o.lastIdx ∧
        (∀ j, k ≤ j → j < o.lastIdx → probe j = Probe.down) := by
  intro fuel
  induction fuel with
  | zero => intro i k e o h; simp [waitForStartAux] at h
  | succ f ih =>
    intro i k e o h hres
    rw [waitForStartAux] at h
    rcases hp : probe k with _ | _
    · rw [hp] at h
      simp only [Option.some.injEq] at h
      subst h
      exact ⟨hp, le_refl _, fun j h1 h2 => absurd (lt_of_le_of_lt h1 h2) (lt_irrefl k)⟩
    · rw [hp] at h
      by_cases hle : jsLe0 (jsSub1 (if jsFalsy i then jsDiv500 t else i)) = true
      · simp only [hle, if_true] at h
        simp only [Option.some.injEq] at h
        subst h
        simp at hres
      · simp only [Bool.not_eq_true] at hle
        simp only [hle, Bool.false_eq_true, if_false] at h
        obtain ⟨hup, hk, hpref⟩ := ih _ _ _ _ h hres
        refine ⟨hup, le_trans (Nat.le_succ k) hk, fun j h1 h2 => ?_⟩
        rcases Nat.eq_or_lt_of_le h1 with h1 | h1
        · exact h1 ▸ hp
        · exact hpref j h1 h2

/-- When every probe fails and the countdown is the positive exact
rational c / 500, the start poll raises the timeout after the countdown
has been decremented to at most zero, having waited one 500 ms interval
before every probe but the first. -/
lemma waitForStartAux_allDown (probe : Nat → Probe) (t : JSNum)
    (hdown : ∀ j, probe j = Probe.down) :
    ∀ (fuel : Nat) (c : Int) (k e : Nat), 0 < c → c ≤ 500 * (fuel : Int) →
      ∃ m : Nat, waitForStartAux probe t (.frac500 c) k e fuel =
          some ⟨WaitResult.timedOut, k + m, e + 500 * m, .frac500 (c - 500 * ((m : Int) + 1))⟩ ∧
        c - 500 * ((m : Int) + 1) ≤ 0 ∧ 500 * (m : Int) < c := by
  intro fuel
  induction fuel with
  | zero => intro c k e hc hfuel; simp at hfuel; omega
  | succ f ih =>
    intro c k e hc hfuel
    have hcne : (c == 0) = false := by simp; omega
    by_cases hstop : c - 500 ≤ 0
    · refine ⟨0, ?_, by push_cast; omega, by push_cast; omega⟩
      rw [waitForStartAux]
      rw [hdown k]
      simp only [jsFalsy, hcne, Bool.false_eq_true, if_false, jsSub1, jsLe0,
        decide_eq_true_eq]
      rw [if_pos hstop]
      simp
    · push_neg at hstop
      have hrec := ih (c - 500) (k + 1) (e + TIMEOUT_POLL_INCREMENT) (by omega)
        (by push_cast at hfuel ⊢; omega)
      obtain ⟨m, hm, hle, hlt⟩ := hrec
      refine ⟨m + 1, ?_, by push_cast at hle ⊢; omega, by push_cast at hlt ⊢; omega⟩
      rw [waitForStartAux]
      rw [hdown k]
      simp only [jsFalsy, hcne, Bool.false_eq_true, if_false, jsSub1, jsLe0,
        decide_eq_true_eq]
      rw [if_neg (by omega)]
      rw [hm]
      have h1 : k + 1 + m = k + (m + 1) := by omega
      have h2 : e + TIMEOUT_POLL_INCREMENT + 500 * m = e + 500 * (m + 1) := by
        unfold TIMEOUT_POLL_INCREMENT; omega
      have h3 : c - 500 - 500 * ((m : Int) + 1) = c - 500 * (((m + 1 : Nat) : Int) + 1) := by
        push_cast; ring
      rw [h1, h2, h3]

/-- Entering the start poll with an undefined countdown and a whole
positive timeout is the same as entering it with the countdown already
initialized to the exact rational timeout / 500. -/
lemma waitForStart_init (probe : Nat → Probe) (t : Int) (fuel : Nat) (ht : 0 < t) :
    waitForStart probe (.int t) fuel = waitForStartAux probe (.int t) (.frac500 t) 0 0 fuel := by
  cases fuel with
  | zero => rfl
  | succ f =>
    rw [waitForStart, waitForStartAux, waitForStartAux]
    have hcne : (t == 0) = false := by simp; omega
    simp [jsFalsy, jsDiv500, hcne]

/-- With a timeout whose division by the poll increment is NaN, the start
poll never terminates while probes keep failing: the countdown never
satisfies the timeout test. -/
lemma waitForStartAux_nan_none (probe : Nat → Probe) (t : JSNum)
    (ht : jsDiv500 t = JSNum.nan) (hdown : ∀ j, probe j = Probe.down) :
    ∀ (fuel : Nat) (i : JSNum) (k e : Nat), jsFalsy i = true ∨ i = JSNum.nan →
      waitForStartAux probe t i k e fuel = none := by
  intro fuel
  induction fuel with
  | zero => intro i k e _; rfl
  | succ f ih =>
    intro i k e hi
    have hnan : (if jsFalsy i then jsDiv500 t else i) = JSNum.nan := by
      rcases hi with hi | hi
      · rw [if_pos hi, ht]
      · subst hi; cases h : jsFalsy JSNum.nan <;> simp [ht]
    rw [waitForStartAux, hnan, hdown k]
    simp only [jsSub1, jsLe0, Bool.false_eq_true, if_false]
    exact ih _ _ _ (Or.inr rfl)

/-- With a timeout whose division by the poll increment is NaN, the start
poll can only ever resolve: the start-timeout branch is unreachable for
every probe sequence. -/
lemma waitForStartAux_nan_no_timeout (probe : Nat → Probe) (t : JSNum)
    (ht : jsDiv500 t = JSNum.nan) :
    ∀ (fuel : Nat) (i : JSNum) (k e : Nat) (o : WaitOut),
      jsFalsy i = true ∨ i = JSNum.nan →
      waitForStartAux probe t i k e fuel = some o → o.result = WaitResult.resolved := by
  intro fuel
  induction fuel with
  | zero => intro i k e o _ h; simp [waitForStartAux] at h
  | succ f ih =>
    intro i k e o hi h
    have hnan : (if jsFalsy i then jsDiv500 t else i) = JSNum.nan := by
      rcases hi with hi | hi
      · rw [if_pos hi, ht]
      · subst hi; cases h2 : jsFalsy JSNum.nan <;> simp [ht]
    rw [waitForStartAux, hnan] at h
    rcases hp : probe k with _ | _
    · rw [hp] at h
      simp only [Option.some.injEq] at h
      subst h; rfl
    · rw [hp] at h
      simp only [jsSub1, jsLe0, Bool.false_eq_true, if_false] at h
      exact ih _ _ _ _ (Or.inr rfl) h

/-- The mirror of waitForStartAux_nan_none for the stop poll: with a NaN
countdown the stop poll never terminates while probes keep succeeding. -/
lemma waitForStopAux_nan_none (probe : Nat → Probe) (t : JSNum)
    (ht : jsDiv500 t = JSNum.nan) (hup : ∀ j, probe j = Probe.up) :
    ∀ (fuel : Nat) (i : JSNum) (k e : Nat), jsFalsy i = true ∨ i = JSNum.nan →
      waitForStopAux probe t i k e fuel = none := by
  intro fuel
  induction fuel with
  | zero => intro i k e _; rfl
  | succ f ih =>
    intro i k e hi
    have hnan : (if jsFalsy i then jsDiv500 t else i) = JSNum.nan := by
      rcases hi with hi | hi
      · rw [if_pos hi, ht]
      · subst hi; cases h : jsFalsy JSNum.nan <;> simp [ht]
    rw [waitForStopAux, hnan, hup k]
    simp only [jsSub1, jsLe0, Bool.false_eq_true, if_false]
    exact ih _ _ _ (Or.inr rfl)

/-- The mirror of waitForStartAux_nan_no_timeout for the stop poll: with a
NaN countdown the stop-timeout branch is unreachable. -/
lemma waitForStopAux_nan_no_timeout (probe : Nat → Probe) (t : JSNum)
    (ht : jsDiv500 t = JSNum.nan) :
    ∀ (fuel : Nat) (i : JSNum) (k e : Nat) (o : WaitOut),
      jsFalsy i = true ∨ i = JSNum.nan →
      waitForStopAux probe t i k e fuel = some o → o.result = WaitResult.resolved := by
  intro fuel
  induction fuel with
  | zero => intro i k e o _ h; simp [waitForStopAux] at h
  | succ f ih =>
    intro i k e o hi h
    have hnan : (if jsFalsy i then jsDiv500 t else i) = JSNum.nan := by
      rcases hi with hi | hi
      · rw [if_pos hi, ht]
      · subst hi; cases h2 : jsFalsy JSNum.nan <;> simp [ht]
    rw [waitForStopAux, hnan] at h
    rcases hp : probe k with _ | _
    · rw [hp] at h
      simp only [jsSub1, jsLe0, Bool.false_eq_true, if_false] at h
      exact ih _ _ _ _ (Or.inr rfl) h
    · rw [hp] at h
      simp only [Option.some.injEq] at h
      subst h; rfl

/-! ## Claim theorems -/

/-- C1: start resolves only after a TCP connectivity probe succeeds: any
resolved poll (and hence any resolved start) saw its last probe report up,
every earlier probe having failed; and when every probe fails and the
timeout is a positive whole number of milliseconds, the poll raises the
start-timeout error once the countdown, initialized to timeout / 500, has
been decremented to at most zero, having waited a fixed 500 ms interval
before every retry. -/
theorem start_resolves_only_after_probe_up
    (probe : Nat → Probe) (t : Int) (fuel : Nat)
    (ht : 0 < t) (hdown : ∀ j, probe j = Probe.down) (hfuel : t ≤ 500 * (fuel : Int)) :
    (∀ (p : Nat → Probe) (tm : JSNum) (f : Nat) (o : WaitOut),
        waitForStart p tm f = some o → o.result = WaitResult.resolved →
        p o.lastIdx = Probe.up ∧ ∀ j, j < o.lastIdx → p j = Probe.down) ∧
    (∀ (sp : Except Err Nat) (fl : List (String × JSVal)) (p : Nat → Probe) (tm : JSNum)
        (f : Nat) (st : Status) (n : Nat),
        (startRun sp fl p tm f st).2 = some (Except.ok n) → p n = Probe.up) ∧
    (∃ m : Nat, waitForStart probe (JSNum.int t) fuel =
        some ⟨WaitResult.timedOut, m, TIMEOUT_POLL_INCREMENT * m,
              JSNum.frac500 (t - 500 * ((m : Int) + 1))⟩ ∧
      t - 500 * ((m : Int) + 1) ≤ 0 ∧ 500 * (m : Int) < t) := by
  have hres : ∀ (p : Nat → Probe) (tm : JSNum) (f : Nat) (o : WaitOut),
      waitForStart p tm f = some o → o.result = WaitResult.resolved →
      p o.lastIdx = Probe.up ∧ ∀ j, j < o.lastIdx → p j = Probe.down := by
    intro p tm f o h hr
    obtain ⟨hup, _, hpref⟩ := waitForStartAux_resolved p tm f _ _ _ _ h hr
    exact ⟨hup, fun j hj => hpref j (Nat.zero_le j) hj⟩
  refine ⟨hres, ?_, ?_⟩
  · intro sp fl p tm f st n hok
    cases sp with
    | error e => simp [startRun] at hok
    | ok pid =>
      cases hw : waitForStart p tm f with
      | none => simp [startRun, hw] at hok
      | some o =>
        cases hr : o.result with
        | resolved =>
          simp [startRun, hw, hr] at hok
          obtain ⟨hup, _⟩ := hres p tm f o hw hr
          rwa [hok] at hup
        | timedOut => simp [startRun, hw, hr] at hok
  · rw [waitForStart_init probe t fuel ht]
    obtain ⟨m, hm, hle, hlt⟩ :=
      waitForStartAux_allDown probe (JSNum.int t) hdown fuel t 0 0 ht hfuel
    refine ⟨m, ?_, hle, hlt⟩
    rw [hm]
    norm_num [TIMEOUT_POLL_INCREMENT]

/-- Witness for C1 at a concrete input: with a 1000 ms timeout and every
probe failing, the poll times out after the second probe with the counter
decremented to zero. -/
theorem start_resolves_only_after_probe_up_witness :
    ∃ m : Nat, waitForStart (fun _ => Probe.down) (JSNum.int 1000) 5 =
        some ⟨WaitResult.timedOut, m, TIMEOUT_POLL_INCREMENT * m,
              JSNum.frac500 (1000 - 500 * ((m : Int) + 1))⟩ ∧
      1000 - 500 * ((m : Int) + 1) ≤ 0 ∧ 500 * (m : Int) < 1000 :=
  (start_resolves_only_after_probe_up (fun _ => Probe.down) 1000 5 (by decide)
    (fun _ => rfl) (by decide)).2.2

/-- C2: every execution path of stop issues the graceful-shutdown DELETE
first and ends by invoking kill exactly once, whether the DELETE and the
stop confirmation resolved or rejected. -/
theorem stop_always_invokes_kill :
    ∀ (deleteOut waitOut killOut : POut Unit),
      (stop deleteOut waitOut killOut).ops.head? = some Op.httpDelete ∧
      (stop deleteOut waitOut killOut).ops.getLast? = some Op.killOp ∧
      (stop deleteOut waitOut killOut).ops.count Op.killOp = 1 := by
  intro deleteOut waitOut killOut
  cases deleteOut <;> cases waitOut <;> exact ⟨rfl, rfl, rfl⟩

/-- C3: kill always resolves and always clears the status record: for
every persisted store state and every signal-delivery behaviour
(including a missing pid or failed delivery), the promise resolves and
the record is empty afterwards. -/
theorem kill_always_resolves_and_clears :
    ∀ (delivers : JSVal → Bool) (st : Status),
      kill delivers st = (statusClear st, POut.res ()) := by
  intro delivers st
  unfold kill killBody
  by_cases h : delivers (statusGet "pid" st) = true
  · rw [if_pos h]
  · rw [if_neg h]

/-- C4: a spawn failure propagates as that error with the status store
unchanged, and the status record (including the child pid) is written
exactly on the successful-spawn path. -/
theorem start_spawn_failure_atomic :
    ∀ (e : Err) (fields : List (String × JSVal)) (probe : Nat → Probe) (t : JSNum)
      (fuel : Nat) (st : Status),
      startRun (Except.error e) fields probe t fuel st = (st, some (Except.error e)) ∧
      ∀ pid : Nat, (startRun (Except.ok pid) fields probe t fuel st).1 =
        statusSet "pid" (JSVal.num pid) (statusSetAll fields st) := by
  intro e fields probe t fuel st
  refine ⟨rfl, fun pid => ?_⟩
  cases hw : waitForStart probe t fuel with
  | none => simp [startRun, hw]
  | some o => cases hr : o.result <;> simp [startRun, hw, hr]

/-- Counterexample to C5 as stated: at a concrete input where the
persisted status record and the environment returned by GET env=true
differ, the implemented status returns the persisted record as metadata,
not the result of the GET that the claim prescribes. -/
theorem status_env_metadata_cex :
    statusOp (POut.res ()) [("host", JSVal.str "localhost")] =
      POut.res (StatusOutcome.running [("host", JSVal.str "localhost")]) ∧
    statusSpecModel (POut.res ()) [("host", JSVal.str "remote")] =
      POut.res (StatusOutcome.running [("host", JSVal.str "remote")]) ∧
    ([("host", JSVal.str "localhost")] : Status) ≠ [("host", JSVal.str "remote")] :=
  ⟨rfl, rfl, by decide⟩

/-- C5 (amended): status performs a TCP connectivity probe and, when the
probe succeeds, returns RUNNING with the full persisted status record as
metadata; when the probe fails it returns STOPPED carrying the probe
error; the result is always exactly one of these two shapes and status
never rejects. -/
theorem status_two_shapes_never_rejects (probeOut : POut Unit) (st : Status) :
    (probeOut = POut.res () → statusOp probeOut st = POut.res (StatusOutcome.running st)) ∧
    (∀ e, probeOut = POut.rej e → statusOp probeOut st = POut.res (StatusOutcome.stopped e)) ∧
    (∃ v, statusOp probeOut st = POut.res v) := by
  cases probeOut <;> simp [statusOp]

/-- Witness for C5 (amended) at a concrete input: a successful probe
yields RUNNING with the persisted record. -/
theorem status_two_shapes_never_rejects_witness :
    statusOp (POut.res ()) [("port", JSVal.num 8010)] =
      POut.res (StatusOutcome.running [("port", JSVal.num 8010)]) :=
  (status_two_shapes_never_rejects (POut.res ()) [("port", JSVal.num 8010)]).1 rfl

/-- C6: at most one of the inspect and debug flags is ever added to the
child arguments; a requested inspect is honored exactly on a runtime of
major version at least six and otherwise dropped with a warning; when
inspect is requested the debug flag is never added, and debug is added
only when inspect was not requested. -/
theorem inspect_debug_flag_selection (inspect debug debugPort : JSVal) (major : JSNum) :
    ((debugInspectFlags inspect debug debugPort major).1.length ≤ 1) ∧
    (isTrueFlag inspect = true → jsGe6 major = true →
      debugInspectFlags inspect debug debugPort major =
        (["--inspect"], [ConsoleMsg.logInspect])) ∧
    (isTrueFlag inspect = true → jsGe6 major = false →
      debugInspectFlags inspect debug debugPort major =
        ([], [ConsoleMsg.warnInspectNode])) ∧
    (isTrueFlag inspect = true →
      (debugInspectFlags inspect debug debugPort major).1 = ["--inspect"] ∨
      (debugInspectFlags inspect debug debugPort major).1 = ([] : List String)) ∧
    (isTrueFlag inspect = false → isTrueFlag debug = true →
      debugInspectFlags inspect debug debugPort major =
        (["--debug=" ++ jsShow debugPort], [ConsoleMsg.logDebug])) := by
  unfold debugInspectFlags
  by_cases hi : isTrueFlag inspect = true <;>
    by_cases hm : jsGe6 major = true <;>
      by_cases hd : isTrueFlag debug = true <;>
        simp [hi, hm, hd]

/-- Witness for C6 at a concrete input: inspect and debug both requested
on a major-7 runtime select only the inspect flag. -/
theorem inspect_debug_flag_selection_witness :
    debugInspectFlags (JSVal.bool true) (JSVal.bool true) (JSVal.num 5858) (JSNum.int 7) =
      (["--inspect"], [ConsoleMsg.logInspect]) :=
  (inspect_debug_flag_selection (JSVal.bool true) (JSVal.bool true) (JSVal.num 5858)
    (JSNum.int 7)).2.1 (by decide) (by decide)

/-- C7: for a POST with a body, a string body is parsed as JSON before
transmission and any other body is passed through, so a pre-serialized
JSON string and the structured value it denotes produce identical
outgoing requests from call. -/
theorem post_body_normalization (o : ActionOpts) (s : String) (j : Json) (base nm : String)
    (hm : o.method = some "POST") (hs : (s == "") = false) (hp : jsonParse s = some j) :
    (o.data = some (BodyData.str s) →
      buildRequest (ActionArg.withOpts o) =
        Except.ok (⟨o.url, "POST", JsonField.body j, o.timeoutMs⟩, o.raw)) ∧
    (o.data = some (BodyData.obj j) →
      buildRequest (ActionArg.withOpts o) =
        Except.ok (⟨o.url, "POST", JsonField.body j, o.timeoutMs⟩, o.raw)) ∧
    call base nm (some (BodyData.str s)) = call base nm (some (BodyData.obj j)) := by
  refine ⟨?_, ?_, ?_⟩
  · intro hd
    simp [buildRequest, hm, hd, bodyTruthy, hs, hp]
  · intro hd
    simp [buildRequest, hm, hd, bodyTruthy, hs, hp]
  · simp [call, buildRequest, bodyTruthy, hs, hp]

/-- Witness for C7 at the concrete inputs of the claim: the string form
and the object form of the same one-field document produce identical
outgoing requests. -/
theorem post_body_normalization_witness :
    call "http://localhost:8008" "hello" (some (BodyData.str "\x7b\"a\":1\x7d")) =
      call "http://localhost:8008" "hello"
        (some (BodyData.obj (Json.obj [("a", Json.num 1)]))) :=
  (post_body_normalization { method := some "POST" } "\x7b\"a\":1\x7d"
    (Json.obj [("a", Json.num 1)]) "http://localhost:8008" "hello" rfl rfl (by rfl)).2.2

/-- Counterexample to C8 as stated: the recursion also terminates when
opts.timeout is the number zero, which is not positive — the countdown is
initialized to 0, the first failed probe decrements it below zero, and the
start-timeout error is raised at once. -/
theorem poll_zero_timeout_terminates_cex :
    waitForStart (fun _ => Probe.down) (JSNum.int 0) 3 =
      some ⟨WaitResult.timedOut, 0, 0, JSNum.frac500 (-500)⟩ := by
  decide

/-- C8 (amended): with an undefined or non-numeric opts.timeout the
countdown is NaN, the decrement never satisfies the timeout test, so the
timeout branch is unreachable and the poll retries every 500 ms
indefinitely while the probe keeps reporting the non-terminal state — this
holds for both _waitForStart and _waitForStop.  Under always-failing
probes the recursion terminates exactly when opts.timeout is numeric: any
whole timeout, positive or not, reaches the start-timeout error
(non-positive ones immediately). -/
theorem poll_nan_counter_never_times_out (t : JSNum) (ht : jsDiv500 t = JSNum.nan) :
    (∀ probe : Nat → Probe, (∀ j, probe j = Probe.down) →
      ∀ fuel, waitForStart probe t fuel = none) ∧
    (∀ (probe : Nat → Probe) (fuel : Nat) (o : WaitOut),
      waitForStart probe t fuel = some o → o.result = WaitResult.resolved) ∧
    (∀ probe : Nat → Probe, (∀ j, probe j = Probe.up) →
      ∀ fuel, waitForStop probe t fuel = none) ∧
    (∀ (probe : Nat → Probe) (fuel : Nat) (o : WaitOut),
      waitForStop probe t fuel = some o → o.result = WaitResult.resolved) ∧
    (∀ (q : Int) (probe : Nat → Probe) (f : Nat), q ≤ 0 → probe 0 = Probe.down → 0 < f →
      waitForStart probe (JSNum.int q) f =
        some ⟨WaitResult.timedOut, 0, 0, JSNum.frac500 (q - 500)⟩) := by
  refine ⟨?_, ?_, ?_, ?_, ?_⟩
  · intro probe hdown fuel
    exact waitForStartAux_nan_none probe t ht hdown fuel JSNum.undefined 0 0 (Or.inl rfl)
  · intro probe fuel o h
    exact waitForStartAux_nan_no_timeout probe t ht fuel JSNum.undefined 0 0 o (Or.inl rfl) h
  · intro probe hup fuel
    exact waitForStopAux_nan_none probe t ht hup fuel JSNum.undefined 0 0 (Or.inl rfl)
  · intro probe fuel o h
    exact waitForStopAux_nan_no_timeout probe t ht fuel JSNum.undefined 0 0 o (Or.inl rfl) h
  · intro q probe f hq hp hf
    cases f with
    | zero => omega
    | succ f2 =>
      rw [waitForStart, waitForStartAux]
      rw [hp]
      simp only [jsFalsy, if_true, jsDiv500, jsSub1, jsLe0]
      rw [if_pos (by simp; omega)]

/-- Witness for C8 (amended) at a concrete input: with an undefined
timeout and every probe failing, four polls have still not terminated. -/
theorem poll_nan_counter_never_times_out_witness :
    waitForStart (fun _ => Probe.down) JSNum.undefined 4 = none :=
  (poll_nan_counter_never_times_out JSNum.undefined rfl).1 (fun _ => Probe.down) (fun _ => rfl) 4

/-- C9: a falsy caller-supplied option is treated as absent: getSetting
falls back to the configuration default, getEmulatorRootUri falls back
first to the persisted status record and then to the configuration, and a
truthy configured default can never be displaced by a falsy request. -/
theorem falsy_option_fallback (opts cfg : String → JSVal) (st : Status) (key : String)
    (hk : truthy (opts key) = false) (hh : truthy (opts "host") = false) :
    getSetting key opts cfg = cfg key ∧
    resolvedHost opts st cfg =
      (if truthy (statusGet "host" st) then statusGet "host" st else cfg "host") ∧
    (truthy (cfg key) = true → truthy (getSetting key opts cfg) = true) := by
  refine ⟨?_, ?_, ?_⟩ <;> simp [getSetting, resolvedHost, jsOr, hk, hh]

/-- Witness for C9 at a concrete input: requesting port 0 (falsy) yields
the configured port 8008. -/
theorem falsy_option_fallback_witness :
    getSetting "port" (fun _ => JSVal.num 0) (fun _ => JSVal.num 8008) = JSVal.num 8008 :=
  (falsy_option_fallback (fun _ => JSVal.num 0) (fun _ => JSVal.num 8008) [] "port"
    (by decide) (by decide)).1

/-- C10: when inspect is requested on a runtime of major version below
six and debug is also set, neither the inspect flag nor the debug flag is
added: only the warning is surfaced and the child arguments are exactly
the base arguments. -/
theorem old_runtime_inspect_drops_debug (inspect debug debugPort : JSVal) (major : JSNum)
    (baseArgs : List String)
    (hins : isTrueFlag inspect = true) (hmaj : jsGe6 major = false)
    (_hdbg : isTrueFlag debug = true) :
    debugInspectFlags inspect debug debugPort major = ([], [ConsoleMsg.warnInspectNode]) ∧
    startArgs baseArgs inspect debug debugPort major = baseArgs := by
  unfold startArgs debugInspectFlags
  simp [hins, hmaj]

/-- Witness for C10 at a concrete input: inspect and debug both requested
on the version-4 runtime leave the base arguments unchanged. -/
theorem old_runtime_inspect_drops_debug_witness :
    startArgs [".", "--host", "localhost"] (JSVal.str "true") (JSVal.bool true)
      (JSVal.num 5858) (parseMajor "v4.2.0") = [".", "--host", "localhost"] :=
  (old_runtime_inspect_drops_debug (JSVal.str "true") (JSVal.bool true) (JSVal.num 5858)
    (parseMajor "v4.2.0") [".", "--host", "localhost"] (by decide) (by decide) (by decide)).2

end Emulator
